import Mathlib

/-!
Verification of the agent-session-dashboard core: session registry
(`src/agent_manager.py`), state-detection engine and polling coordinator
(`src/session_monitor.py`), data model (`src/session_state.py`) and the
configuration constants (`config/defaults.py`).

The embedding is shallow: Python strings become `String` / `List Char`
(Python `str.strip` is modelled for the ASCII whitespace characters that
CPython strips: space, tab, newline, carriage return, vertical tab, form
feed); the in-memory dict `AgentManager._sessions` becomes an association
list with Python-dict semantics (update in place, insert at the end);
the external tmux server becomes an explicit list of host sessions passed
as a parameter; the JSONL transcript tail becomes a list of already-decoded
records (a record whose `type` is neither `user` nor `assistant`, or a line
that fails to parse, is `LogRecord.other`); external side effects (SIGTERM
to a ttyd process, `tmux kill-session`) are returned as explicit action
values; a fallible host call is an `Except` / `Bool` parameter.
-/

/-- Model of `SessionState` from `src/session_state.py`. -/
inductive SessionState where
  | idle
  | working
  | waiting_input
  | error
  | stopped
deriving DecidableEq, Repr

/-- One content block of an assistant record, as probed by
`_detect_state_from_transcript`: only `b.get("type")` and `b.get("name")`
are inspected, both possibly absent. -/
structure ContentBlock where
  btype : Option String
  bname : Option String
deriving DecidableEq, Repr

/-- One decoded line of the JSONL transcript tail. `other` stands both for a
record whose `type` is neither `"user"` nor `"assistant"` and for an
unparsable line (both are skipped by the reader loop). -/
inductive LogRecord where
  | user
  | assistant (content : List ContentBlock)
  | other
deriving DecidableEq, Repr

/-- Model of `SessionInfo` from `src/session_state.py` (the fields the core uses). -/
structure SessionInfo where
  name : String
  tmux_session_name : String
  state : SessionState
  last_output : String := ""
  working_directory : Option String := none
  created_at : Nat := 0
  ttyd_port : Option Nat := none
  ttyd_pid : Option Nat := none
deriving DecidableEq, Repr

/-- One tmux session as seen through the host boundary: its name, the active
pane's working directory as discovery resolves it (`""` on failure), and the
pane capture (`none` models `capture_pane` raising). -/
structure HostSession where
  name : String
  cwd : String
  output : Option String
deriving DecidableEq, Repr

/-- Model of `SESSION_PREFIX` from `config/defaults.py`. -/
def sessionPrefixStr : String := "claude_"

/-- Model of `IDLE_PROMPT_MARKERS` from `config/defaults.py`. -/
def IDLE_PROMPT_MARKERS : List String := ["❯", "$", ">"]

/-- Model of `PROMPT_KEYWORDS` from `config/defaults.py`. -/
def PROMPT_KEYWORDS : List String := ["?"]

/-- Model of `CHOICE_PREFIXES` from `config/defaults.py`. -/
def CHOICE_PREFIXES : List String := ["1.", "2.", "3.", "4.", "●", "○", "- ["]

/-- Model of `ERROR_KEYWORDS` from `config/defaults.py` (declared there, read by no
detection path). -/
def ERROR_KEYWORDS : List String := ["error", "failed", "exception", "traceback"]

/-- Characters removed by Python `str.strip()` on the inputs in scope
(CPython's ASCII whitespace set). -/
def isPyWs (c : Char) : Bool :=
  c = ' ' || c = '\t' || c = '\n' || c = '\r' || c = Char.ofNat 11 || c = Char.ofNat 12

/-- Python `str.strip()`. -/
def pystrip (l : List Char) : List Char :=
  ((l.dropWhile isPyWs).reverse.dropWhile isPyWs).reverse

/-- Python `s.split("\n")` (every newline splits; empty pieces kept). -/
def splitNl : List Char → List (List Char)
  | [] => [[]]
  | c :: rest =>
    if c = '\n' then [] :: splitNl rest
    else
      match splitNl rest with
      | [] => [[c]]
      | h :: t => (c :: h) :: t

/-- Python `l[-n:]`. -/
def takeRight (n : Nat) (l : List α) : List α :=
  l.drop (l.length - n)

/-- Python `s.startswith(p)` on char lists. -/
def hasPre : List Char → List Char → Bool
  | [], _ => true
  | _ :: _, [] => false
  | p :: ps, c :: cs => if p = c then hasPre ps cs else false

/-- Python `s.endswith(p)` on char lists. -/
def hasSuf (p l : List Char) : Bool :=
  hasPre p.reverse l.reverse

/-- Python `p in s` (substring test) on char lists. -/
def hasSub (p : List Char) : List Char → Bool
  | [] => p.isEmpty
  | c :: cs => hasPre p (c :: cs) || hasSub p cs

/-- The bottom-up idle-prompt check of `_detect_state_from_output`: walk the
window from the end, skip blank lines, and decide on the first non-blank
line only. -/
def lastNonBlank (w : List (List Char)) : Option (List Char) :=
  w.reverse.find? (fun l => !(pystrip l).isEmpty)

/-- One line of the top-down scan of `_detect_state_from_output`: an
enumerated-choice line or a question line signals `WAITING_INPUT`. -/
def lineSignalsChoice (l : List Char) : Bool :=
  let stripped := pystrip l
  CHOICE_PREFIXES.any (fun p => hasPre p.data stripped) ||
    (PROMPT_KEYWORDS.any (fun kw => hasSub kw.data stripped) && hasSuf "?".data stripped)

/-- Model of `SessionMonitor._detect_state_from_output` (Tier-2 fallback detection). -/
def detect_state_from_output (output : String) : SessionState :=
  let cs := pystrip output.data
  if cs.isEmpty then SessionState.working
  else
    let lines := splitNl cs
    let tail := takeRight 15 lines
    let w := takeRight 8 tail
    let idleHit :=
      match lastNonBlank w with
      | some l => IDLE_PROMPT_MARKERS.any (fun m => hasSuf m.data (pystrip l))
      | none => false
    if idleHit then SessionState.idle
    else if w.any lineSignalsChoice then SessionState.waiting_input
    else SessionState.working

/-- A content block satisfying
`b.get("type") == "tool_use" and b.get("name") == "AskUserQuestion"`. -/
def isAskBlock (b : ContentBlock) : Bool :=
  decide (b.btype = some "tool_use") && decide (b.bname = some "AskUserQuestion")

/-- A content block satisfying
`b.get("type") == "tool_use" and b.get("name") == "Task"`. -/
def isTaskBlock (b : ContentBlock) : Bool :=
  decide (b.btype = some "tool_use") && decide (b.bname = some "Task")

/-- Model of `has_ask` of `_detect_state_from_transcript`. -/
def hasAsk (c : List ContentBlock) : Bool := c.any isAskBlock

/-- Model of `has_task` of `_detect_state_from_transcript`. -/
def hasTask (c : List ContentBlock) : Bool := c.any isTaskBlock

/-- The forward reader loop of `_detect_state_from_transcript`: it folds over
the tail records keeping the last user/assistant record seen (`last_type`,
`last_content`). -/
def scanLast (recs : List LogRecord) : Option LogRecord :=
  recs.foldl
    (fun acc r =>
      match r with
      | LogRecord.user => some LogRecord.user
      | LogRecord.assistant c => some (LogRecord.assistant c)
      | LogRecord.other => acc)
    none

/-- The classification step of `SessionMonitor._detect_state_from_transcript`
(lines 129-147), applied to the decoded tail records. The surrounding
file-resolution failure paths (no transcript / IO error) return `None` in the
source and are modelled at the poll level by an absent transcript. -/
def detect_state_from_transcript (recs : List LogRecord) : SessionState :=
  match scanLast recs with
  | some LogRecord.user => SessionState.working
  | some (LogRecord.assistant c) =>
    if hasAsk c then SessionState.waiting_input
    else if hasTask c then SessionState.working
    else SessionState.idle
  | some LogRecord.other => SessionState.idle
  | none => SessionState.idle

/-- Specification-side characterisation of the record the reader loop keeps:
the last record of the tail that is a user or assistant turn. -/
def lastTurnSpec : List LogRecord → Option LogRecord
  | [] => none
  | r :: rest =>
    match lastTurnSpec rest with
    | some t => some t
    | none =>
      match r with
      | LogRecord.user => some LogRecord.user
      | LogRecord.assistant c => some (LogRecord.assistant c)
      | LogRecord.other => none

/-- The in-memory store `AgentManager._sessions`: a Python dict keyed by the
tmux session name, embedded as an association list (first occurrence wins on
lookup; assignment updates in place; fresh keys append). -/
abbrev Registry := List (String × SessionInfo)

/-- Python `self._sessions.get(k)` / `AgentManager.get_session`. -/
def lookupA : Registry → String → Option SessionInfo
  | [], _ => none
  | kv :: rest, k => if kv.1 = k then some kv.2 else lookupA rest k

/-- Python `self._sessions[k] = v`: replace the entry if the key is present,
append otherwise. -/
def insertA (r : Registry) (k : String) (v : SessionInfo) : Registry :=
  if (lookupA r k).isSome then
    r.map (fun kv => if kv.1 = k then (k, v) else kv)
  else
    r ++ [(k, v)]

/-- Python `del self._sessions[k]` guarded by a membership check. -/
def eraseA : Registry → String → Registry
  | [], _ => []
  | kv :: rest, k => if kv.1 = k then eraseA rest k else kv :: eraseA rest k

/-- Model of `AgentManager.list_sessions` (the dict's values, in insertion order). -/
def list_sessions (r : Registry) : List SessionInfo := r.map (fun kv => kv.2)

/-- Model of `AgentManager._find_tmux_session(name) is not None` /
`AgentManager.session_exists`. -/
def hostHas : List HostSession → String → Bool
  | [], _ => false
  | s :: rest, n => if s.name = n then true else hostHas rest n

/-- Model of `AgentManager._find_tmux_session` (first tmux session with that name). -/
def hostFind : List HostSession → String → Option HostSession
  | [], _ => none
  | s :: rest, n => if s.name = n then some s else hostFind rest n

/-- Model of `AgentManager.capture_output`: the pane capture, or `""` when the session
cannot be resolved or the capture raises. -/
def captureOut (host : List HostSession) (n : String) : String :=
  match hostFind host n with
  | none => ""
  | some s => s.output.getD ""

/-- Membership in the discovered-name set. -/
def listHasStr : List String → String → Bool
  | [], _ => false
  | x :: rest, n => if x = n then true else listHasStr rest n

/-- Model of `AgentManager._discover_existing_sessions`: walk the host's sessions; a
session whose name carries the `claude_` naming convention and is not yet a
registry key is adopted — logical name is the key with the convention marker
stripped, working directory is the pane's (best effort), initial state is
seeded by the output heuristic (`WORKING` when the capture raises) — and its
tmux name is added to the discovered set. Returns (new registry, discovered
names). -/
def discoverSessions : List HostSession → Registry → Registry × List String
  | [], r => (r, [])
  | s :: rest, r =>
    if hasPre sessionPrefixStr.data s.name.data then
      if (lookupA r s.name).isSome then discoverSessions rest r
      else
        let project := String.mk (s.name.data.drop sessionPrefixStr.data.length)
        let st :=
          match s.output with
          | none => SessionState.working
          | some o => detect_state_from_output o
        let info : SessionInfo :=
          { name := project
            tmux_session_name := s.name
            state := st
            last_output := ""
            working_directory := some s.cwd
            created_at := 0
            ttyd_port := none
            ttyd_pid := none }
        let res := discoverSessions rest (insertA r s.name info)
        (res.1, s.name :: res.2)
    else discoverSessions rest r

/-- Result of `AgentManager.sync_sessions`: the new store, the discovered
tmux names, and the entries that were marked `STOPPED` and deleted. -/
structure SyncResult where
  registry : Registry
  fresh : List String
  removed : List (String × SessionInfo)
deriving DecidableEq, Repr

/-- Model of `AgentManager.sync_sessions`: discover new host sessions, then delete
every registry entry whose tmux session is gone (its state is set to
`STOPPED` just before deletion; those final records are reported in
`removed`). -/
def sync_sessions (host : List HostSession) (r : Registry) : SyncResult :=
  let d := discoverSessions host r
  { registry := d.1.filter (fun kv => hostHas host kv.1)
    fresh := d.2
    removed :=
      (d.1.filter (fun kv => !(hostHas host kv.1))).map
        (fun kv => (kv.1, { kv.2 with state := SessionState.stopped })) }

/-- Model of `AgentManager.create_session`. `hostRes` stands for the tmux
`new_session` + initial `send_keys` calls: `Except.error` models the host
raising (the error propagates before any registry write). `~`-expansion is
modelled as the identity on the already-expanded path. -/
def create_session (r : Registry) (project working_dir : String)
    (hostRes : Except Unit Unit) : Except Unit SessionInfo × Registry :=
  let session_name := sessionPrefixStr ++ project
  match hostRes with
  | Except.error e => (Except.error e, r)
  | Except.ok _ =>
    let info : SessionInfo :=
      { name := project
        tmux_session_name := session_name
        state := SessionState.working
        last_output := ""
        working_directory := some working_dir
        created_at := 0
        ttyd_port := none
        ttyd_pid := none }
    (Except.ok info, insertA r session_name info)

/-- Model of `AgentManager.stop_ttyd`: returns the new store and the list of bridge
pids that received SIGTERM. The early return fires when the session is
unknown or `info.ttyd_pid` is falsy (absent or zero); otherwise the signal
is sent (`ProcessLookupError` is swallowed) and both remote-access fields
are cleared. -/
def stop_ttyd (r : Registry) (n : String) : Registry × List Nat :=
  match lookupA r n with
  | none => (r, [])
  | some info =>
    match info.ttyd_pid with
    | none => (r, [])
    | some pid =>
      if pid = 0 then (r, [])
      else
        (insertA r n { info with ttyd_pid := none, ttyd_port := none }, [pid])

/-- External teardown effects of `kill_session`. -/
inductive KillAct where
  | bridge (pid : Nat)
  | tmuxKill (n : String)
deriving DecidableEq, Repr

/-- Model of `AgentManager.kill_session`: stop the ttyd bridge, kill the tmux session
when it exists (`killOk = false` models `tmux_session.kill()` raising, in
which case the handler returns `False` and the store keeps whatever
`stop_ttyd` left), then mark `STOPPED` and delete the entry; returns
(result, store, external actions). -/
def kill_session (r : Registry) (host : List HostSession) (killOk : Bool)
    (n : String) : Bool × Registry × List KillAct :=
  let t := stop_ttyd r n
  let acts := t.2.map KillAct.bridge
  if hostHas host n then
    if killOk then (true, eraseA t.1 n, acts ++ [KillAct.tmuxKill n])
    else (false, t.1, acts)
  else (true, eraseA t.1 n, acts)

/-- The per-session body of `SessionMonitor._poll_all` (lines 72-93), folded
over the session snapshot taken after sync. `hostLive` is the tmux server as
the loop's `session_exists` / `capture_output` calls observe it; `tr` maps a
tmux name to the decoded transcript tail when `_detect_state_from_transcript`
finds one (`none` is its no-transcript / IO-failure result). Returns the new
store and the `_on_state_change` invocations in order. -/
def poll_loop (hostLive : List HostSession) (tr : String → Option (List LogRecord)) :
    List SessionInfo → Registry → Registry × List SessionInfo
  | [], r => (r, [])
  | s :: rest, r =>
    if s.state = SessionState.stopped then poll_loop hostLive tr rest r
    else if hostHas hostLive s.tmux_session_name then
      let ns :=
        match tr s.tmux_session_name with
        | some recs => detect_state_from_transcript recs
        | none => detect_state_from_output (captureOut hostLive s.tmux_session_name)
      if ns = s.state then poll_loop hostLive tr rest r
      else
        let s' := { s with state := ns }
        let res := poll_loop hostLive tr rest (insertA r s.tmux_session_name s')
        (res.1, s' :: res.2)
    else
      let s' := { s with state := SessionState.stopped }
      let res := poll_loop hostLive tr rest (insertA r s.tmux_session_name s')
      (res.1, s' :: res.2)

/-- Result of one `SessionMonitor._poll_all` cycle. -/
structure PollResult where
  registry : Registry
  callbacks : List SessionInfo
deriving DecidableEq, Repr

/-- Model of `SessionMonitor._poll_all`: sync against the host, fire the callback for
every newly discovered session, then re-evaluate every non-stopped session.
`hostSync` is the tmux server as `sync_sessions` observes it and `hostLive`
as the subsequent per-session `session_exists` / `capture_output` calls do
(the two are separate queries in the source and the server can change in
between). -/
def poll_all (hostSync hostLive : List HostSession)
    (tr : String → Option (List LogRecord)) (r : Registry) : PollResult :=
  let sy := sync_sessions hostSync r
  let snapshot := list_sessions sy.registry
  let cbs1 := snapshot.filter (fun i => listHasStr sy.fresh i.tmux_session_name)
  let res := poll_loop hostLive tr snapshot sy.registry
  { registry := res.1, callbacks := cbs1 ++ res.2 }

/-- Number of callback invocations delivered for one tmux session name. -/
def cntTmux (n : String) (cbs : List SessionInfo) : Nat :=
  (cbs.filter (fun i => i.tmux_session_name = n)).length

/-! Section: Association-list laws for the session store -/

theorem lookupA_replace_self (r : Registry) (k : String) (v : SessionInfo)
    (h : (lookupA r k).isSome = true) :
    lookupA (r.map (fun kv => if kv.1 = k then (k, v) else kv)) k = some v := by
  induction r with
  | nil => simp [lookupA] at h
  | cons kv rest ih =>
    by_cases hk : kv.1 = k
    · simp [List.map_cons, if_pos hk, lookupA]
    · simp only [lookupA, if_neg hk] at h
      simp only [List.map_cons, if_neg hk, lookupA]
      exact ih h

theorem lookupA_replace_ne (r : Registry) (k k' : String) (v : SessionInfo)
    (h : k' ≠ k) :
    lookupA (r.map (fun kv => if kv.1 = k then (k, v) else kv)) k' = lookupA r k' := by
  induction r with
  | nil => rfl
  | cons kv rest ih =>
    by_cases hk : kv.1 = k
    · have hne : k ≠ k' := fun hh => h hh.symm
      simp only [List.map_cons, if_pos hk, lookupA, if_neg hne]
      rw [if_neg (hk ▸ hne)]
      exact ih
    · simp only [List.map_cons, if_neg hk, lookupA]
      by_cases hk' : kv.1 = k'
      · rw [if_pos hk', if_pos hk']
      · rw [if_neg hk', if_neg hk']
        exact ih

theorem lookupA_append_single_self (r : Registry) (k : String) (v : SessionInfo)
    (h : lookupA r k = none) :
    lookupA (r ++ [(k, v)]) k = some v := by
  induction r with
  | nil => simp [lookupA]
  | cons kv rest ih =>
    by_cases hk : kv.1 = k
    · simp [lookupA, if_pos hk] at h
    · simp only [lookupA, if_neg hk] at h
      simp only [List.cons_append, lookupA, if_neg hk]
      exact ih h

theorem lookupA_append_single_ne (r : Registry) (k k' : String) (v : SessionInfo)
    (h : k' ≠ k) :
    lookupA (r ++ [(k, v)]) k' = lookupA r k' := by
  induction r with
  | nil =>
    have hne : k ≠ k' := fun hh => h hh.symm
    simp [lookupA, if_neg hne]
  | cons kv rest ih =>
    simp only [List.cons_append, lookupA]
    by_cases hk' : kv.1 = k'
    · rw [if_pos hk', if_pos hk']
    · rw [if_neg hk', if_neg hk']
      exact ih

theorem lookupA_insertA_self (r : Registry) (k : String) (v : SessionInfo) :
    lookupA (insertA r k v) k = some v := by
  unfold insertA
  by_cases h : (lookupA r k).isSome = true
  · rw [if_pos h]
    exact lookupA_replace_self r k v h
  · rw [if_neg h]
    exact lookupA_append_single_self r k v (by
      cases hl : lookupA r k with
      | none => rfl
      | some i => rw [hl] at h; simp at h)

theorem lookupA_insertA_ne (r : Registry) (k k' : String) (v : SessionInfo)
    (h : k' ≠ k) : lookupA (insertA r k v) k' = lookupA r k' := by
  unfold insertA
  by_cases hs : (lookupA r k).isSome = true
  · rw [if_pos hs]
    exact lookupA_replace_ne r k k' v h
  · rw [if_neg hs]
    exact lookupA_append_single_ne r k k' v h

theorem mem_of_lookupA (r : Registry) (k : String) (v : SessionInfo)
    (h : lookupA r k = some v) : (k, v) ∈ r := by
  induction r with
  | nil => simp [lookupA] at h
  | cons kv rest ih =>
    by_cases hk : kv.1 = k
    · simp only [lookupA, if_pos hk] at h
      cases h
      subst hk
      exact List.mem_cons_self _ _
    · simp only [lookupA, if_neg hk] at h
      exact List.mem_cons_of_mem _ (ih h)

theorem mem_insertA (r : Registry) (k : String) (v : SessionInfo) (kv' : String × SessionInfo)
    (h : kv' ∈ insertA r k v) : kv' ∈ r ∨ kv' = (k, v) := by
  unfold insertA at h
  split at h
  · rcases List.mem_map.mp h with ⟨kv, hm, heq⟩
    by_cases hk : kv.1 = k
    · right; rw [if_pos hk] at heq; exact heq.symm
    · left; rw [if_neg hk] at heq; exact heq ▸ hm
  · rcases List.mem_append.mp h with hm | hm
    · left; exact hm
    · right; simpa using hm

theorem lookupA_eraseA (r : Registry) (k : String) :
    lookupA (eraseA r k) k = none := by
  induction r with
  | nil => simp [eraseA, lookupA]
  | cons kv rest ih =>
    by_cases hk : kv.1 = k
    · simpa [eraseA, hk] using ih
    · simp [eraseA, hk, lookupA, ih]

theorem eraseA_of_lookupA_none (r : Registry) (k : String)
    (h : lookupA r k = none) : eraseA r k = r := by
  induction r with
  | nil => rfl
  | cons kv rest ih =>
    by_cases hk : kv.1 = k
    · simp [lookupA, if_pos hk] at h
    · simp only [lookupA, if_neg hk] at h
      simp [eraseA, hk, ih h]

theorem lookupA_filter_key_true (r : Registry) (q : String → Bool) (k : String)
    (h : q k = true) :
    lookupA (r.filter (fun kv => q kv.1)) k = lookupA r k := by
  induction r with
  | nil => rfl
  | cons kv rest ih =>
    by_cases hk : kv.1 = k
    · subst hk
      simp [List.filter_cons, h, lookupA, ih]
    · by_cases hq : q kv.1 = true
      · simp [List.filter_cons, hq, lookupA, hk, ih]
      · simp only [Bool.not_eq_true] at hq
        simp [List.filter_cons, hq, lookupA, hk, ih]

theorem lookupA_filter_key_false (r : Registry) (q : String → Bool) (k : String)
    (h : q k = false) :
    lookupA (r.filter (fun kv => q kv.1)) k = none := by
  induction r with
  | nil => rfl
  | cons kv rest ih =>
    by_cases hk : kv.1 = k
    · subst hk
      simp [List.filter_cons, h, ih]
    · by_cases hq : q kv.1 = true
      · simp [List.filter_cons, hq, lookupA, hk, ih]
      · simp only [Bool.not_eq_true] at hq
        simp [List.filter_cons, hq, lookupA, hk, ih]

/-! Section: Detection-engine laws -/

theorem detect_output_cases (o : String) :
    detect_state_from_output o = SessionState.idle ∨
    detect_state_from_output o = SessionState.working ∨
    detect_state_from_output o = SessionState.waiting_input := by
  unfold detect_state_from_output
  dsimp only
  split
  · exact Or.inr (Or.inl rfl)
  · split
    · exact Or.inl rfl
    · split
      · exact Or.inr (Or.inr rfl)
      · exact Or.inr (Or.inl rfl)

theorem transcript_cases (recs : List LogRecord) :
    detect_state_from_transcript recs = SessionState.idle ∨
    detect_state_from_transcript recs = SessionState.working ∨
    detect_state_from_transcript recs = SessionState.waiting_input := by
  unfold detect_state_from_transcript
  split
  · exact Or.inr (Or.inl rfl)
  · split
    · exact Or.inr (Or.inr rfl)
    · split
      · exact Or.inr (Or.inl rfl)
      · exact Or.inl rfl
  · exact Or.inl rfl
  · exact Or.inl rfl

theorem scanLast_go (recs : List LogRecord) : ∀ acc : Option LogRecord,
    List.foldl
      (fun acc r =>
        match r with
        | LogRecord.user => some LogRecord.user
        | LogRecord.assistant c => some (LogRecord.assistant c)
        | LogRecord.other => acc)
      acc recs
    = match lastTurnSpec recs with
      | some t => some t
      | none => acc := by
  induction recs with
  | nil => intro acc; simp [lastTurnSpec]
  | cons r rest ih =>
    intro acc
    simp only [List.foldl_cons]
    rw [ih]
    cases r <;> simp only [lastTurnSpec] <;> cases lastTurnSpec rest <;> simp

theorem scanLast_eq_lastTurnSpec (recs : List LogRecord) :
    scanLast recs = lastTurnSpec recs := by
  unfold scanLast
  rw [scanLast_go]
  cases lastTurnSpec recs <;> rfl

/-! Section: Claim C1 — Tier-1 transcript classification -/

/-- Claim C1: for any structured-log tail, if the last user/assistant record
is a user turn the detector returns `WORKING`; if it is an assistant turn
whose content blocks include a `tool_use` named `AskUserQuestion` it returns
`WAITING_INPUT`; if it is an assistant turn with a `Task` tool_use and no
question block it returns `WORKING`; if it is an assistant turn with neither
it returns `IDLE`; and if no qualifying record is found at all it returns
`IDLE`. -/
theorem tier1_transcript_classification (recs : List LogRecord) :
    (lastTurnSpec recs = some LogRecord.user →
      detect_state_from_transcript recs = SessionState.working) ∧
    (∀ c, lastTurnSpec recs = some (LogRecord.assistant c) → hasAsk c = true →
      detect_state_from_transcript recs = SessionState.waiting_input) ∧
    (∀ c, lastTurnSpec recs = some (LogRecord.assistant c) → hasAsk c = false →
      hasTask c = true →
      detect_state_from_transcript recs = SessionState.working) ∧
    (∀ c, lastTurnSpec recs = some (LogRecord.assistant c) → hasAsk c = false →
      hasTask c = false →
      detect_state_from_transcript recs = SessionState.idle) ∧
    (lastTurnSpec recs = none →
      detect_state_from_transcript recs = SessionState.idle) := by
  unfold detect_state_from_transcript
  rw [scanLast_eq_lastTurnSpec]
  refine ⟨?_, ?_, ?_, ?_, ?_⟩
  · intro h; rw [h]
  · intro c h ha; rw [h]; simp [ha]
  · intro c h ha ht; rw [h]; simp [ha, ht]
  · intro c h ha ht; rw [h]; simp [ha, ht]
  · intro h; rw [h]

theorem tier1_transcript_classification_witness :
    (lastTurnSpec [LogRecord.other, LogRecord.user] = some LogRecord.user ∧
      detect_state_from_transcript [LogRecord.other, LogRecord.user] =
        SessionState.working) ∧
    (lastTurnSpec [LogRecord.user,
        LogRecord.assistant [⟨some "tool_use", some "AskUserQuestion"⟩]] =
      some (LogRecord.assistant [⟨some "tool_use", some "AskUserQuestion"⟩]) ∧
      detect_state_from_transcript [LogRecord.user,
        LogRecord.assistant [⟨some "tool_use", some "AskUserQuestion"⟩]] =
        SessionState.waiting_input) ∧
    (detect_state_from_transcript [LogRecord.assistant [⟨some "tool_use", some "Task"⟩]] =
      SessionState.working) ∧
    (detect_state_from_transcript [LogRecord.assistant []] = SessionState.idle) ∧
    (detect_state_from_transcript [LogRecord.other] = SessionState.idle) :=
  ⟨⟨by decide, (tier1_transcript_classification _).1 (by decide)⟩,
   ⟨by decide, (tier1_transcript_classification _).2.1
     [⟨some "tool_use", some "AskUserQuestion"⟩] (by decide) (by decide)⟩,
   (tier1_transcript_classification _).2.2.1
     [⟨some "tool_use", some "Task"⟩] (by decide) (by decide) (by decide),
   (tier1_transcript_classification _).2.2.2.1 [] (by decide) (by decide) (by decide),
   (tier1_transcript_classification _).2.2.2.2 (by decide)⟩

/-! Section: Claim C2 — Tier-2 fallback test vectors -/

theorem pystrip_of_all_ws (l : List Char) (h : l.all isPyWs = true) :
    pystrip l = [] := by
  have h1 : l.dropWhile isPyWs = [] := by
    rw [List.dropWhile_eq_nil_iff]
    intro x hx
    exact List.all_eq_true.mp h x hx
  simp [pystrip, h1]

/-- Claim C2: the Tier-2 fallback detector satisfies the spec's test vectors:
a last non-blank line ending in an idle-prompt marker yields `IDLE`;
enumerated-choice prefixes yield `WAITING_INPUT`; empty or whitespace-only
input yields `WORKING`; unmatched output yields `WORKING`. -/
theorem tier2_fallback_vectors :
    (∀ s : String, s.data.all isPyWs = true →
      detect_state_from_output s = SessionState.working) ∧
    detect_state_from_output "some text\n❯ " = SessionState.idle ∧
    detect_state_from_output "1. Option A\n2. Option B\n" = SessionState.waiting_input ∧
    detect_state_from_output "" = SessionState.working ∧
    detect_state_from_output "compiling...\n" = SessionState.working := by
  refine ⟨?_, by decide, by decide, by decide, by decide⟩
  intro s h
  unfold detect_state_from_output
  rw [pystrip_of_all_ws s.data h]
  rfl

theorem tier2_fallback_vectors_witness :
    ("   \t ".data.all isPyWs = true ∧
      detect_state_from_output "   \t " = SessionState.working) :=
  ⟨by decide, tier2_fallback_vectors.1 "   \t " (by decide)⟩

/-! Section: Claim C3 — sync removes stale entries -/

theorem discover_preserve_lookup (h : List HostSession) :
    ∀ (r : Registry) (k : String) (i : SessionInfo),
      lookupA r k = some i → lookupA (discoverSessions h r).1 k = some i := by
  induction h with
  | nil => intro r k i hl; simpa [discoverSessions] using hl
  | cons s rest ih =>
    intro r k i hl
    unfold discoverSessions
    by_cases hp : hasPre sessionPrefixStr.data s.name.data = true
    · rw [if_pos hp]
      by_cases hs : (lookupA r s.name).isSome = true
      · rw [if_pos hs]; exact ih r k i hl
      · rw [if_neg hs]
        dsimp only
        apply ih
        rw [lookupA_insertA_ne]
        · exact hl
        · intro hk
          subst hk
          rw [hl] at hs
          simp at hs
    · rw [if_neg hp]; exact ih r k i hl

/-- Claim C3: for every registry-known session whose host session name no
longer exists at the host, a single `sync_sessions` call sets that session's
state to `STOPPED` and removes it from the store, so a subsequent
`list_sessions` does not contain it and `get_session` on its name returns
nothing. -/
theorem sync_removes_stale (host : List HostSession) (r : Registry) (k : String)
    (i : SessionInfo) (hreg : lookupA r k = some i) (hgone : hostHas host k = false) :
    (k, { i with state := SessionState.stopped }) ∈ (sync_sessions host r).removed ∧
    lookupA (sync_sessions host r).registry k = none ∧
    ∀ kv ∈ (sync_sessions host r).registry, kv.1 ≠ k := by
  have hd : lookupA (discoverSessions host r).1 k = some i :=
    discover_preserve_lookup host r k i hreg
  have hmem : (k, i) ∈ (discoverSessions host r).1 := mem_of_lookupA _ _ _ hd
  unfold sync_sessions
  dsimp only
  refine ⟨?_, ?_, ?_⟩
  · apply List.mem_map.mpr
    refine ⟨(k, i), ?_, rfl⟩
    apply List.mem_filter.mpr
    exact ⟨hmem, by simp [hgone]⟩
  · exact lookupA_filter_key_false _ _ _ hgone
  · intro kv hkv hk
    have hh := (List.mem_filter.mp hkv).2
    rw [hk, hgone] at hh
    simp at hh

theorem sync_removes_stale_witness :
    lookupA [("claude_a", ({ name := "a", tmux_session_name := "claude_a", state := SessionState.working } : SessionInfo))] "claude_a" =
      some { name := "a", tmux_session_name := "claude_a", state := SessionState.working } ∧
    hostHas [] "claude_a" = false ∧
    (("claude_a", ({ name := "a", tmux_session_name := "claude_a", state := SessionState.stopped } : SessionInfo)) ∈
      (sync_sessions [] [("claude_a", { name := "a", tmux_session_name := "claude_a", state := SessionState.working })]).removed ∧
      lookupA (sync_sessions [] [("claude_a", { name := "a", tmux_session_name := "claude_a", state := SessionState.working })]).registry "claude_a" = none ∧
      ∀ kv ∈ (sync_sessions [] [("claude_a", { name := "a", tmux_session_name := "claude_a", state := SessionState.working })]).registry, kv.1 ≠ "claude_a") :=
  ⟨by decide, by decide,
    sync_removes_stale []
      [("claude_a", { name := "a", tmux_session_name := "claude_a", state := SessionState.working })]
      "claude_a"
      { name := "a", tmux_session_name := "claude_a", state := SessionState.working }
      (by decide) (by decide)⟩

/-! Section: Claim C7 — create inserts WORKING or propagates the host error -/

/-- Claim C7: on success `create_session` inserts into the registry and
returns a new session whose state is `WORKING`; if the host cannot create
the session, the host error propagates to the caller and the registry is
left unchanged (no partial entry). -/
theorem create_session_correct (r : Registry) (project wd : String)
    (hostRes : Except Unit Unit) :
    (hostRes = Except.error () →
      create_session r project wd hostRes = (Except.error (), r)) ∧
    (hostRes = Except.ok () →
      ∃ info : SessionInfo,
        (create_session r project wd hostRes).1 = Except.ok info ∧
        info.state = SessionState.working ∧
        info.name = project ∧
        info.tmux_session_name = sessionPrefixStr ++ project ∧
        lookupA (create_session r project wd hostRes).2
          (sessionPrefixStr ++ project) = some info ∧
        ∀ k, k ≠ sessionPrefixStr ++ project →
          lookupA (create_session r project wd hostRes).2 k = lookupA r k) := by
  constructor
  · intro h; subst h; rfl
  · intro h; subst h
    refine ⟨_, rfl, rfl, rfl, rfl, ?_, ?_⟩
    · exact lookupA_insertA_self _ _ _
    · intro k hk; exact lookupA_insertA_ne _ _ _ _ hk

theorem create_session_correct_witness :
    (Except.ok () : Except Unit Unit) = Except.ok () ∧
    ∃ info : SessionInfo,
      (create_session [] "demo" "/tmp/x" (Except.ok ())).1 = Except.ok info ∧
      info.state = SessionState.working ∧
      info.name = "demo" ∧
      info.tmux_session_name = sessionPrefixStr ++ "demo" ∧
      lookupA (create_session [] "demo" "/tmp/x" (Except.ok ())).2
        (sessionPrefixStr ++ "demo") = some info ∧
      ∀ k, k ≠ sessionPrefixStr ++ "demo" →
        lookupA (create_session [] "demo" "/tmp/x" (Except.ok ())).2 k =
          lookupA [] k :=
  ⟨rfl, (create_session_correct [] "demo" "/tmp/x" (Except.ok ())).2 rfl⟩

/-! Section: Claim C8 — stopping remote access is idempotent -/

/-- Claim C8: `stop_ttyd` is idempotent — after either of two consecutive
calls the session's remote-access fields are absent, and the second call
changes nothing and sends no further signal. The hypothesis is the
reachable-state invariant on the entry: its `ttyd_pid` is never the falsy
pid 0 (`Popen` pids are positive), and when `ttyd_pid` is absent so is
`ttyd_port` (the two fields are only ever set together by `start_ttyd` and
cleared together by `stop_ttyd`). -/
theorem stop_ttyd_idempotent (r : Registry) (n : String)
    (hpair : ∀ i, lookupA r n = some i →
      i.ttyd_pid ≠ some 0 ∧ (i.ttyd_pid = none → i.ttyd_port = none)) :
    stop_ttyd (stop_ttyd r n).1 n = ((stop_ttyd r n).1, []) ∧
    (∀ i, lookupA (stop_ttyd r n).1 n = some i →
      i.ttyd_pid = none ∧ i.ttyd_port = none) := by
  cases hl : lookupA r n with
  | none =>
    have e : stop_ttyd r n = (r, []) := by
      unfold stop_ttyd; rw [hl]
    constructor
    · rw [e]; exact e
    · intro i hi
      rw [e] at hi
      dsimp only at hi
      rw [hl] at hi
      cases hi
  | some i =>
    cases hp : i.ttyd_pid with
    | none =>
      have e : stop_ttyd r n = (r, []) := by
        unfold stop_ttyd; rw [hl]; dsimp only; rw [hp]
      constructor
      · rw [e]; exact e
      · intro j hj
        rw [e] at hj
        dsimp only at hj
        rw [hl] at hj
        cases hj
        exact ⟨hp, (hpair i hl).2 hp⟩
    | some p =>
      have hz : p ≠ 0 := by
        intro h0
        exact (hpair i hl).1 (h0 ▸ hp)
      have e : stop_ttyd r n =
          (insertA r n { i with ttyd_pid := none, ttyd_port := none }, [p]) := by
        unfold stop_ttyd; rw [hl]; dsimp only; rw [hp]; dsimp only; rw [if_neg hz]
      constructor
      · rw [e]
        dsimp only
        unfold stop_ttyd
        rw [lookupA_insertA_self]
      · intro j hj
        rw [e] at hj
        dsimp only at hj
        rw [lookupA_insertA_self] at hj
        cases hj
        exact ⟨rfl, rfl⟩

theorem stop_ttyd_idempotent_witness :
    (∀ i : SessionInfo,
      lookupA [("claude_a", ({ name := "a", tmux_session_name := "claude_a", state := SessionState.working, ttyd_port := some 7681, ttyd_pid := some 91 } : SessionInfo))] "claude_a" = some i →
      i.ttyd_pid ≠ some 0 ∧ (i.ttyd_pid = none → i.ttyd_port = none)) ∧
    (stop_ttyd (stop_ttyd [("claude_a", { name := "a", tmux_session_name := "claude_a", state := SessionState.working, ttyd_port := some 7681, ttyd_pid := some 91 })] "claude_a").1 "claude_a" =
      ((stop_ttyd [("claude_a", { name := "a", tmux_session_name := "claude_a", state := SessionState.working, ttyd_port := some 7681, ttyd_pid := some 91 })] "claude_a").1, []) ∧
    ∀ i, lookupA (stop_ttyd [("claude_a", { name := "a", tmux_session_name := "claude_a", state := SessionState.working, ttyd_port := some 7681, ttyd_pid := some 91 })] "claude_a").1 "claude_a" = some i →
      i.ttyd_pid = none ∧ i.ttyd_port = none) :=
  ⟨fun i hi => by
      simp only [lookupA, if_pos rfl] at hi
      cases hi
      exact ⟨by decide, by intro h; cases h⟩,
   stop_ttyd_idempotent
     [("claude_a", { name := "a", tmux_session_name := "claude_a", state := SessionState.working, ttyd_port := some 7681, ttyd_pid := some 91 })]
     "claude_a"
     (fun i hi => by
       simp only [lookupA, if_pos rfl] at hi
       cases hi
       exact ⟨by decide, by intro h; cases h⟩)⟩

/-! Section: Claim C10 — kill on an unknown or gone session succeeds -/

theorem stop_ttyd_of_lookupA_none (r : Registry) (n : String)
    (h : lookupA r n = none) : stop_ttyd r n = (r, []) := by
  unfold stop_ttyd; rw [h]

/-- Claim C10: `kill_session` on a session that is unknown to the registry or
whose host session no longer exists returns `True`: the bridge stop and host
termination are skipped without error, the store removal is a no-op, and
`False` is returned only when an exception occurs during teardown (the host
kill raising on a live host session). -/
theorem kill_unknown_or_gone (r : Registry) (host : List HostSession)
    (killOk : Bool) (n : String) :
    (hostHas host n = false → lookupA r n = none →
      (kill_session r host killOk n).1 = true ∧
      (kill_session r host killOk n).2.1 = r ∧
      (kill_session r host killOk n).2.2 = []) ∧
    (hostHas host n = false →
      (kill_session r host killOk n).1 = true ∧
      lookupA (kill_session r host killOk n).2.1 n = none ∧
      KillAct.tmuxKill n ∉ (kill_session r host killOk n).2.2) ∧
    ((kill_session r host killOk n).1 = false →
      killOk = false ∧ hostHas host n = true) := by
  refine ⟨?_, ?_, ?_⟩
  · intro hgone hreg
    have e : stop_ttyd r n = (r, []) := stop_ttyd_of_lookupA_none r n hreg
    unfold kill_session
    rw [e]
    dsimp only
    rw [if_neg (by rw [hgone]; exact Bool.false_ne_true)]
    exact ⟨rfl, eraseA_of_lookupA_none r n hreg, rfl⟩
  · intro hgone
    unfold kill_session
    rw [if_neg (by rw [hgone]; exact Bool.false_ne_true)]
    dsimp only
    refine ⟨rfl, lookupA_eraseA _ _, ?_⟩
    intro hmem
    rcases List.mem_map.mp hmem with ⟨pid, _, heq⟩
    cases heq
  · intro hfalse
    unfold kill_session at hfalse
    by_cases hh : hostHas host n = true
    · rw [if_pos hh] at hfalse
      by_cases hk : killOk = true
      · rw [if_pos hk] at hfalse
        cases hfalse
      · rw [if_neg hk] at hfalse
        exact ⟨Bool.not_eq_true killOk ▸ hk, hh⟩
    · rw [if_neg hh] at hfalse
      cases hfalse

theorem kill_unknown_or_gone_witness :
    hostHas [] "claude_x" = false ∧
    lookupA [] "claude_x" = none ∧
    ((kill_session [] [] true "claude_x").1 = true ∧
      (kill_session [] [] true "claude_x").2.1 = [] ∧
      (kill_session [] [] true "claude_x").2.2 = []) :=
  ⟨rfl, rfl, (kill_unknown_or_gone [] [] true "claude_x").1 rfl rfl⟩

/-! Section: Claim C6 — discovery naming -/

theorem hostHas_cons (s : HostSession) (rest : List HostSession) (n : String)
    (h : hostHas rest n = true) : hostHas (s :: rest) n = true := by
  unfold hostHas
  split
  · rfl
  · exact h

theorem discover_covers (h : List HostSession) :
    ∀ (r : Registry) (s : HostSession), s ∈ h →
      hasPre sessionPrefixStr.data s.name.data = true →
      lookupA r s.name = none →
      listHasStr (discoverSessions h r).2 s.name = true := by
  induction h with
  | nil => intro r s hs; cases hs
  | cons s' rest ih =>
    intro r s hs hp hn
    rcases List.mem_cons.mp hs with heq | hmem
    · subst heq
      unfold discoverSessions
      rw [if_pos hp]
      rw [if_neg (by rw [hn]; simp)]
      dsimp only
      unfold listHasStr
      rw [if_pos rfl]
    · unfold discoverSessions
      by_cases hp' : hasPre sessionPrefixStr.data s'.name.data = true
      · rw [if_pos hp']
        by_cases hs' : (lookupA r s'.name).isSome = true
        · rw [if_pos hs']
          exact ih r s hmem hp hn
        · rw [if_neg hs']
          dsimp only
          unfold listHasStr
          by_cases heq : s'.name = s.name
          · rw [if_pos heq]
          · rw [if_neg heq]
            apply ih _ s hmem hp
            rw [lookupA_insertA_ne _ _ _ _ (fun hh => heq hh.symm)]
            exact hn
      · rw [if_neg hp']
        exact ih r s hmem hp hn

theorem discover_fresh_lookup (h : List HostSession) :
    ∀ (r : Registry) (n : String),
      listHasStr (discoverSessions h r).2 n = true →
      ∃ info, lookupA (discoverSessions h r).1 n = some info ∧
        info.tmux_session_name = n ∧
        info.name = String.mk (n.data.drop sessionPrefixStr.data.length) := by
  induction h with
  | nil => intro r n hm; cases hm
  | cons s rest ih =>
    intro r n hm
    unfold discoverSessions at hm ⊢
    by_cases hp : hasPre sessionPrefixStr.data s.name.data = true
    · rw [if_pos hp] at hm ⊢
      by_cases hs : (lookupA r s.name).isSome = true
      · rw [if_pos hs] at hm ⊢
        exact ih r n hm
      · rw [if_neg hs] at hm ⊢
        dsimp only at hm ⊢
        unfold listHasStr at hm
        by_cases heq : s.name = n
        · subst heq
          refine ⟨_, discover_preserve_lookup rest _ s.name _
            (lookupA_insertA_self r s.name _), rfl, rfl⟩
        · rw [if_neg heq] at hm
          exact ih _ n hm
    · rw [if_neg hp] at hm ⊢
      exact ih r n hm

theorem discover_fresh_in_host (h : List HostSession) :
    ∀ (r : Registry) (n : String),
      listHasStr (discoverSessions h r).2 n = true → hostHas h n = true := by
  induction h with
  | nil => intro r n hm; cases hm
  | cons s rest ih =>
    intro r n hm
    unfold discoverSessions at hm
    by_cases hp : hasPre sessionPrefixStr.data s.name.data = true
    · rw [if_pos hp] at hm
      by_cases hs : (lookupA r s.name).isSome = true
      · rw [if_pos hs] at hm
        exact hostHas_cons s rest n (ih r n hm)
      · rw [if_neg hs] at hm
        dsimp only at hm
        unfold listHasStr at hm
        by_cases heq : s.name = n
        · unfold hostHas
          rw [if_pos heq]
        · rw [if_neg heq] at hm
          exact hostHas_cons s rest n (ih _ n hm)
    · rw [if_neg hp] at hm
      exact hostHas_cons s rest n (ih r n hm)

/-- Claim C6 counterexample: for a host session `claude_demo` not yet
registered, one sync call's discovered set holds the prefixed host name
`claude_demo` — the logical (prefix-stripped) name `demo` is neither in the
discovered set nor a key of the store, contradicting the claim that the
session is inserted under the logical name and that the logical name is
returned in the discovered set. -/
theorem discovery_logical_name_cex :
    listHasStr (sync_sessions [⟨"claude_demo", "/tmp", some ""⟩] []).fresh "demo" = false ∧
    lookupA (sync_sessions [⟨"claude_demo", "/tmp", some ""⟩] []).registry "demo" = none ∧
    listHasStr (sync_sessions [⟨"claude_demo", "/tmp", some ""⟩] []).fresh "claude_demo" = true := by
  decide

/-- Claim C6 amended: for every host session whose identifier matches the
naming convention and is not yet registered, `sync_sessions` inserts a
Session under the host (prefixed) session name and returns that host name in
the discovered set; the inserted Session's `name` field carries the logical
(prefix-stripped) name, and a subsequent `get_session` with a name from the
discovered set returns a populated Session. -/
theorem discovery_adds_external_entries (host : List HostSession) (r : Registry) :
    (∀ s ∈ host, hasPre sessionPrefixStr.data s.name.data = true →
      lookupA r s.name = none →
      listHasStr (sync_sessions host r).fresh s.name = true) ∧
    (∀ n, listHasStr (sync_sessions host r).fresh n = true →
      ∃ info, lookupA (sync_sessions host r).registry n = some info ∧
        info.tmux_session_name = n ∧
        info.name = String.mk (n.data.drop sessionPrefixStr.data.length)) := by
  constructor
  · intro s hs hp hn
    unfold sync_sessions
    dsimp only
    exact discover_covers host r s hs hp hn
  · intro n hm
    unfold sync_sessions at hm ⊢
    dsimp only at hm ⊢
    have hh : hostHas host n = true := discover_fresh_in_host host r n hm
    rcases discover_fresh_lookup host r n hm with ⟨info, hl, h1, h2⟩
    exact ⟨info, by rw [lookupA_filter_key_true _ _ _ hh]; exact hl, h1, h2⟩

theorem discovery_adds_external_entries_witness :
    ((⟨"claude_demo", "/tmp", some ""⟩ : HostSession) ∈
        [(⟨"claude_demo", "/tmp", some ""⟩ : HostSession)] ∧
      hasPre sessionPrefixStr.data "claude_demo".data = true ∧
      lookupA [] "claude_demo" = none) ∧
    listHasStr (sync_sessions [⟨"claude_demo", "/tmp", some ""⟩] []).fresh "claude_demo" = true ∧
    ∃ info, lookupA (sync_sessions [⟨"claude_demo", "/tmp", some ""⟩] []).registry "claude_demo" = some info ∧
      info.tmux_session_name = "claude_demo" ∧
      info.name = String.mk ("claude_demo".data.drop sessionPrefixStr.data.length) :=
  ⟨⟨List.mem_singleton.mpr rfl, by decide, rfl⟩,
   (discovery_adds_external_entries [⟨"claude_demo", "/tmp", some ""⟩] []).1 _
     (List.mem_singleton.mpr rfl) (by decide) rfl,
   (discovery_adds_external_entries [⟨"claude_demo", "/tmp", some ""⟩] []).2
     "claude_demo" (by decide)⟩

/-! Section: Claim C9 — no detection path produces ERROR -/

theorem discover_mem (P : String × SessionInfo → Prop) (h : List HostSession)
    (hins : ∀ s ∈ h, ∀ st : SessionState,
      (st = SessionState.working ∨ ∃ o, st = detect_state_from_output o) →
      P (s.name,
        { name := String.mk (s.name.data.drop sessionPrefixStr.data.length)
          tmux_session_name := s.name
          state := st
          last_output := ""
          working_directory := some s.cwd
          created_at := 0
          ttyd_port := none
          ttyd_pid := none })) :
    ∀ (r : Registry), (∀ kv ∈ r, P kv) →
      ∀ kv ∈ (discoverSessions h r).1, P kv := by
  induction h with
  | nil => intro r hP kv hkv; exact hP kv hkv
  | cons s rest ih =>
    intro r hP kv hkv
    have hins' : ∀ s' ∈ rest, ∀ st : SessionState,
        (st = SessionState.working ∨ ∃ o, st = detect_state_from_output o) →
        P (s'.name,
          { name := String.mk (s'.name.data.drop sessionPrefixStr.data.length)
            tmux_session_name := s'.name
            state := st
            last_output := ""
            working_directory := some s'.cwd
            created_at := 0
            ttyd_port := none
            ttyd_pid := none }) :=
      fun s' hs' => hins s' (List.mem_cons_of_mem s hs')
    unfold discoverSessions at hkv
    by_cases hp : hasPre sessionPrefixStr.data s.name.data = true
    · rw [if_pos hp] at hkv
      by_cases hs : (lookupA r s.name).isSome = true
      · rw [if_pos hs] at hkv
        exact ih hins' r hP kv hkv
      · rw [if_neg hs] at hkv
        dsimp only at hkv
        refine ih hins' _ ?_ kv hkv
        intro kv' hkv'
        rcases mem_insertA _ _ _ _ hkv' with hin | heq
        · exact hP kv' hin
        · subst heq
          cases ho : s.output with
          | none =>
            exact hins s (List.mem_cons_self s rest) _ (Or.inl rfl)
          | some o =>
            exact hins s (List.mem_cons_self s rest) _ (Or.inr ⟨o, rfl⟩)
    · rw [if_neg hp] at hkv
      exact ih hins' r hP kv hkv

theorem sync_mem_discover (host : List HostSession) (r : Registry)
    (kv : String × SessionInfo) (h : kv ∈ (sync_sessions host r).registry) :
    kv ∈ (discoverSessions host r).1 ∧ hostHas host kv.1 = true := by
  unfold sync_sessions at h
  dsimp only at h
  exact ⟨(List.mem_filter.mp h).1, (List.mem_filter.mp h).2⟩

theorem poll_loop_mem_state (P : SessionState → Prop) (hs : P SessionState.stopped)
    (hd : ∀ o, P (detect_state_from_output o))
    (ht : ∀ recs, P (detect_state_from_transcript recs))
    (hostLive : List HostSession) (tr : String → Option (List LogRecord)) :
    ∀ (l : List SessionInfo) (r : Registry), (∀ kv ∈ r, P kv.2.state) →
      ∀ kv ∈ (poll_loop hostLive tr l r).1, P kv.2.state := by
  intro l
  induction l with
  | nil => intro r hP kv hkv; exact hP kv hkv
  | cons s rest ih =>
    intro r hP kv hkv
    unfold poll_loop at hkv
    by_cases hst : s.state = SessionState.stopped
    · rw [if_pos hst] at hkv
      exact ih r hP kv hkv
    · rw [if_neg hst] at hkv
      by_cases hh : hostHas hostLive s.tmux_session_name = true
      · rw [if_pos hh] at hkv
        dsimp only at hkv
        by_cases hns :
            (match tr s.tmux_session_name with
              | some recs => detect_state_from_transcript recs
              | none =>
                detect_state_from_output
                  (captureOut hostLive s.tmux_session_name)) = s.state
        · rw [if_pos hns] at hkv
          exact ih r hP kv hkv
        · rw [if_neg hns] at hkv
          dsimp only at hkv
          refine ih _ ?_ kv hkv
          intro kv' hkv'
          rcases mem_insertA _ _ _ _ hkv' with hin | heq
          · exact hP kv' hin
          · subst heq
            dsimp only
            cases htr : tr s.tmux_session_name with
            | some recs => exact ht recs
            | none => exact hd _
      · rw [if_neg hh] at hkv
        dsimp only at hkv
        refine ih _ ?_ kv hkv
        intro kv' hkv'
        rcases mem_insertA _ _ _ _ hkv' with hin | heq
        · exact hP kv' hin
        · subst heq
          exact hs

/-- Claim C9: no detection path ever produces the `ERROR` state — the Tier-2
output heuristic and the Tier-1 transcript classifier only return `IDLE`,
`WORKING`, or `WAITING_INPUT`, so a poll cycle never assigns `ERROR` to any
registered session even though `ERROR` is a member of the state enum and
`ERROR_KEYWORDS` exists in the configuration. -/
theorem detection_never_error :
    (∀ o, detect_state_from_output o ≠ SessionState.error) ∧
    (∀ recs, detect_state_from_transcript recs ≠ SessionState.error) ∧
    (∀ (hostSync hostLive : List HostSession)
        (tr : String → Option (List LogRecord)) (r : Registry),
      (∀ kv ∈ r, kv.2.state ≠ SessionState.error) →
      ∀ kv ∈ (poll_all hostSync hostLive tr r).registry,
        kv.2.state ≠ SessionState.error) := by
  have hdo : ∀ o, detect_state_from_output o ≠ SessionState.error := by
    intro o
    rcases detect_output_cases o with h | h | h <;> rw [h] <;> intro hh <;> cases hh
  have hdt : ∀ recs, detect_state_from_transcript recs ≠ SessionState.error := by
    intro recs
    rcases transcript_cases recs with h | h | h <;> rw [h] <;> intro hh <;> cases hh
  refine ⟨hdo, hdt, ?_⟩
  intro hostSync hostLive tr r hP kv hkv
  unfold poll_all at hkv
  dsimp only at hkv
  refine poll_loop_mem_state (fun st => st ≠ SessionState.error)
    (fun hh => by cases hh) hdo hdt hostLive tr _ _ ?_ kv hkv
  intro kv' hkv'
  have hm := (sync_mem_discover hostSync r kv' hkv').1
  refine discover_mem (fun kv => kv.2.state ≠ SessionState.error) hostSync
    ?_ r hP kv' hm
  intro s _ st hst
  rcases hst with h | ⟨o, h⟩
  · subst h; intro hh; cases hh
  · subst h; exact hdo o

theorem detection_never_error_witness :
    (∀ kv ∈ ([] : Registry), kv.2.state ≠ SessionState.error) ∧
    (∀ kv ∈ (poll_all [⟨"claude_a", "", some ""⟩] [] (fun _ => none) []).registry,
      kv.2.state ≠ SessionState.error) :=
  ⟨fun kv h => absurd h (List.not_mem_nil kv),
   detection_never_error.2.2 [⟨"claude_a", "", some ""⟩] [] (fun _ => none) []
     (fun kv h => absurd h (List.not_mem_nil kv))⟩

/-! Section: Claim C4 — STOPPED is terminal and never lingers -/

theorem poll_loop_mem_state_live (P : SessionState → Prop)
    (hd : ∀ o, P (detect_state_from_output o))
    (ht : ∀ recs, P (detect_state_from_transcript recs))
    (host : List HostSession) (tr : String → Option (List LogRecord)) :
    ∀ (l : List SessionInfo) (r : Registry),
      (∀ s ∈ l, hostHas host s.tmux_session_name = true) →
      (∀ kv ∈ r, P kv.2.state) →
      ∀ kv ∈ (poll_loop host tr l r).1, P kv.2.state := by
  intro l
  induction l with
  | nil => intro r _ hP kv hkv; exact hP kv hkv
  | cons s rest ih =>
    intro r hl hP kv hkv
    have hl' : ∀ s' ∈ rest, hostHas host s'.tmux_session_name = true :=
      fun s' hs' => hl s' (List.mem_cons_of_mem s hs')
    unfold poll_loop at hkv
    by_cases hst : s.state = SessionState.stopped
    · rw [if_pos hst] at hkv
      exact ih r hl' hP kv hkv
    · rw [if_neg hst] at hkv
      rw [if_pos (hl s (List.mem_cons_self s rest))] at hkv
      dsimp only at hkv
      by_cases hns :
          (match tr s.tmux_session_name with
            | some recs => detect_state_from_transcript recs
            | none =>
              detect_state_from_output
                (captureOut host s.tmux_session_name)) = s.state
      · rw [if_pos hns] at hkv
        exact ih r hl' hP kv hkv
      · rw [if_neg hns] at hkv
        dsimp only at hkv
        refine ih _ hl' ?_ kv hkv
        intro kv' hkv'
        rcases mem_insertA _ _ _ _ hkv' with hin | heq
        · exact hP kv' hin
        · subst heq
          dsimp only
          cases htr : tr s.tmux_session_name with
          | some recs => exact ht recs
          | none => exact hd _

/-- Claim C4 counterexample: the poll cycle's liveness check sets `STOPPED`
without removing the session. Host session `claude_a` is present when
`sync_sessions` runs but gone when the loop's `session_exists` call runs
(two separate tmux queries in the source); after `_poll_all` completes,
`get_session` observes a registered session whose state is `STOPPED`. -/
theorem stopped_lingers_after_poll_cex :
    Option.map SessionInfo.state
      (lookupA (poll_all [⟨"claude_a", "", some ""⟩] [] (fun _ => none)
        [("claude_a", { name := "a", tmux_session_name := "claude_a", state := SessionState.working })]).registry
        "claude_a") = some SessionState.stopped := by
  decide

/-- Claim C4 amended: `kill_session` and the sync removal delete the session
in the very operation that marks it `STOPPED`; the poll cycle's liveness
check, however, only sets `STOPPED` and leaves removal to the next cycle's
sync — but when the host does not change between the cycle's sync and its
liveness checks, a poll cycle leaves no registered session in state
`STOPPED`. -/
theorem stopped_terminal_amended :
    (∀ (r : Registry) (host : List HostSession) (killOk : Bool) (n : String),
      (kill_session r host killOk n).1 = true →
      lookupA (kill_session r host killOk n).2.1 n = none) ∧
    (∀ (host : List HostSession) (r : Registry) (k : String) (i : SessionInfo),
      (k, i) ∈ (sync_sessions host r).removed →
      i.state = SessionState.stopped ∧
      lookupA (sync_sessions host r).registry k = none) ∧
    (∀ (host : List HostSession) (tr : String → Option (List LogRecord)) (r : Registry),
      (∀ kv ∈ r, kv.2.tmux_session_name = kv.1) →
      (∀ kv ∈ r, kv.2.state ≠ SessionState.stopped) →
      ∀ kv ∈ (poll_all host host tr r).registry,
        kv.2.state ≠ SessionState.stopped) := by
  have hd : ∀ o, detect_state_from_output o ≠ SessionState.stopped := by
    intro o
    rcases detect_output_cases o with h | h | h <;> rw [h] <;> intro hh <;> cases hh
  have ht : ∀ recs, detect_state_from_transcript recs ≠ SessionState.stopped := by
    intro recs
    rcases transcript_cases recs with h | h | h <;> rw [h] <;> intro hh <;> cases hh
  refine ⟨?_, ?_, ?_⟩
  · intro r host killOk n h
    unfold kill_session at h ⊢
    by_cases hh : hostHas host n = true
    · rw [if_pos hh] at h ⊢
      by_cases hk : killOk = true
      · rw [if_pos hk]
        exact lookupA_eraseA _ _
      · rw [if_neg hk] at h
        cases h
    · rw [if_neg hh]
      exact lookupA_eraseA _ _
  · intro host r k i hmem
    unfold sync_sessions at hmem ⊢
    dsimp only at hmem ⊢
    rcases List.mem_map.mp hmem with ⟨kv, hkv, heq⟩
    injection heq with h1 h2
    subst h1
    subst h2
    have hpred := (List.mem_filter.mp hkv).2
    have hfalse : hostHas host kv.1 = false := by
      cases hc : hostHas host kv.1
      · rfl
      · rw [hc] at hpred; cases hpred
    exact ⟨rfl, lookupA_filter_key_false _ _ _ hfalse⟩
  · intro host tr r hwf hnstop kv hkv
    unfold poll_all at hkv
    dsimp only at hkv
    have hwf' : ∀ kv ∈ (sync_sessions host r).registry,
        kv.2.tmux_session_name = kv.1 := by
      intro kv' hkv'
      exact discover_mem (fun kv => kv.2.tmux_session_name = kv.1) host
        (fun s _ st _ => rfl) r hwf kv' (sync_mem_discover host r kv' hkv').1
    have hns' : ∀ kv ∈ (sync_sessions host r).registry,
        kv.2.state ≠ SessionState.stopped := by
      intro kv' hkv'
      refine discover_mem (fun kv => kv.2.state ≠ SessionState.stopped) host
        ?_ r hnstop kv' (sync_mem_discover host r kv' hkv').1
      intro s _ st hst
      rcases hst with h | ⟨o, h⟩
      · subst h; intro hh; cases hh
      · subst h; exact hd o
    have hlive : ∀ s ∈ list_sessions (sync_sessions host r).registry,
        hostHas host s.tmux_session_name = true := by
      intro s hs
      rcases List.mem_map.mp hs with ⟨kv', hkv', heq⟩
      rw [← heq, hwf' kv' hkv']
      exact (sync_mem_discover host r kv' hkv').2
    exact poll_loop_mem_state_live (fun st => st ≠ SessionState.stopped)
      hd ht host tr _ _ hlive hns' kv hkv

theorem stopped_terminal_amended_witness :
    (kill_session [("claude_a", { name := "a", tmux_session_name := "claude_a", state := SessionState.working })] [] true "claude_a").1 = true ∧
    lookupA (kill_session [("claude_a", { name := "a", tmux_session_name := "claude_a", state := SessionState.working })] [] true "claude_a").2.1 "claude_a" = none :=
  ⟨by decide,
   stopped_terminal_amended.1
     [("claude_a", { name := "a", tmux_session_name := "claude_a", state := SessionState.working })]
     [] true "claude_a" (by decide)⟩

/-! Section: Claim C5 — at most one notification per session per cycle -/

theorem not_mem_keys_of_lookupA_none (r : Registry) (k : String)
    (h : lookupA r k = none) : k ∉ r.map Prod.fst := by
  induction r with
  | nil => simp
  | cons kv rest ih =>
    by_cases hk : kv.1 = k
    · rw [lookupA, if_pos hk] at h; cases h
    · rw [lookupA, if_neg hk] at h
      simp only [List.map_cons, List.mem_cons]
      rintro (h1 | h2)
      · exact hk h1.symm
      · exact ih h h2

theorem keys_insertA_of_none (r : Registry) (k : String) (v : SessionInfo)
    (h : lookupA r k = none) :
    (insertA r k v).map Prod.fst = r.map Prod.fst ++ [k] := by
  unfold insertA
  rw [if_neg (by rw [h]; simp)]
  simp

theorem discover_keys_nodup (h : List HostSession) :
    ∀ r : Registry, (r.map Prod.fst).Nodup →
      ((discoverSessions h r).1.map Prod.fst).Nodup := by
  induction h with
  | nil => intro r hnd; exact hnd
  | cons s rest ih =>
    intro r hnd
    unfold discoverSessions
    by_cases hp : hasPre sessionPrefixStr.data s.name.data = true
    · rw [if_pos hp]
      by_cases hs : (lookupA r s.name).isSome = true
      · rw [if_pos hs]
        exact ih r hnd
      · rw [if_neg hs]
        dsimp only
        apply ih
        have hnone : lookupA r s.name = none := by
          cases hl : lookupA r s.name
          · rfl
          · rw [hl] at hs; simp at hs
        rw [keys_insertA_of_none _ _ _ hnone]
        rw [List.nodup_append]
        refine ⟨hnd, List.nodup_singleton _, ?_⟩
        intro a ha hb
        rw [List.mem_singleton.mp hb] at ha
        exact not_mem_keys_of_lookupA_none r s.name hnone ha
    · rw [if_neg hp]
      exact ih r hnd

theorem sync_keys_nodup (host : List HostSession) (r : Registry)
    (hnd : (r.map Prod.fst).Nodup) :
    ((sync_sessions host r).registry.map Prod.fst).Nodup := by
  unfold sync_sessions
  dsimp only
  exact ((List.filter_sublist _).map Prod.fst).nodup (discover_keys_nodup host r hnd)

theorem snapshot_tmux_eq_keys : ∀ R : Registry,
    (∀ kv ∈ R, kv.2.tmux_session_name = kv.1) →
    (list_sessions R).map (fun i => i.tmux_session_name) = R.map Prod.fst := by
  intro R
  induction R with
  | nil => intro; rfl
  | cons kv rest ih =>
    intro h
    simp only [list_sessions, List.map_cons] at ih ⊢
    rw [h kv (List.mem_cons_self _ _)]
    congr 1
    exact ih (fun kv' h' => h kv' (List.mem_cons_of_mem _ h'))

theorem cntTmux_cons (n : String) (x : SessionInfo) (l : List SessionInfo) :
    cntTmux n (x :: l) =
      if x.tmux_session_name = n then cntTmux n l + 1 else cntTmux n l := by
  unfold cntTmux
  rw [List.filter_cons]
  by_cases h : x.tmux_session_name = n
  · simp [h]
  · simp [h]

theorem cntTmux_append (n : String) (a b : List SessionInfo) :
    cntTmux n (a ++ b) = cntTmux n a + cntTmux n b := by
  unfold cntTmux
  rw [List.filter_append, List.length_append]

theorem cntTmux_eq_zero (n : String) (l : List SessionInfo)
    (h : ∀ i ∈ l, i.tmux_session_name ≠ n) : cntTmux n l = 0 := by
  induction l with
  | nil => rfl
  | cons x rest ih =>
    rw [cntTmux_cons, if_neg (h x (List.mem_cons_self _ _))]
    exact ih (fun i hi => h i (List.mem_cons_of_mem _ hi))

theorem cntTmux_le_one_of_nodup (n : String) (l : List SessionInfo)
    (hnd : (l.map (fun i => i.tmux_session_name)).Nodup) : cntTmux n l ≤ 1 := by
  induction l with
  | nil => exact Nat.zero_le 1
  | cons x rest ih =>
    simp only [List.map_cons, List.nodup_cons] at hnd
    rw [cntTmux_cons]
    by_cases h : x.tmux_session_name = n
    · rw [if_pos h]
      have h0 : cntTmux n rest = 0 := by
        apply cntTmux_eq_zero
        intro i hi hin
        exact hnd.1 (by rw [h, ← hin]; exact List.mem_map_of_mem _ hi)
      rw [h0]
    · rw [if_neg h]
      exact ih hnd.2

theorem cntTmux_filter_le (n : String) (q : SessionInfo → Bool)
    (l : List SessionInfo) : cntTmux n (l.filter q) ≤ cntTmux n l := by
  unfold cntTmux
  exact ((List.filter_sublist l).filter _).length_le

theorem poll_loop_cb_tmux_mem (host : List HostSession)
    (tr : String → Option (List LogRecord)) :
    ∀ (l : List SessionInfo) (r : Registry) (cb : SessionInfo),
      cb ∈ (poll_loop host tr l r).2 →
      cb.tmux_session_name ∈ l.map (fun i => i.tmux_session_name) := by
  intro l
  induction l with
  | nil => intro r cb h; cases h
  | cons s rest ih =>
    intro r cb h
    simp only [List.map_cons, List.mem_cons]
    unfold poll_loop at h
    by_cases hst : s.state = SessionState.stopped
    · rw [if_pos hst] at h
      exact Or.inr (ih r cb h)
    · rw [if_neg hst] at h
      by_cases hh : hostHas host s.tmux_session_name = true
      · rw [if_pos hh] at h
        dsimp only at h
        by_cases hns :
            (match tr s.tmux_session_name with
              | some recs => detect_state_from_transcript recs
              | none =>
                detect_state_from_output
                  (captureOut host s.tmux_session_name)) = s.state
        · rw [if_pos hns] at h
          exact Or.inr (ih r cb h)
        · rw [if_neg hns] at h
          dsimp only at h
          rcases List.mem_cons.mp h with heq | hm
          · subst heq; exact Or.inl rfl
          · exact Or.inr (ih _ cb hm)
      · rw [if_neg hh] at h
        dsimp only at h
        rcases List.mem_cons.mp h with heq | hm
        · subst heq; exact Or.inl rfl
        · exact Or.inr (ih _ cb hm)

theorem poll_loop_cnt_le_one (host : List HostSession)
    (tr : String → Option (List LogRecord)) (n : String) :
    ∀ (l : List SessionInfo) (r : Registry),
      (l.map (fun i => i.tmux_session_name)).Nodup →
      cntTmux n (poll_loop host tr l r).2 ≤ 1 := by
  intro l
  induction l with
  | nil => intro r _; exact Nat.zero_le 1
  | cons s rest ih =>
    intro r hnd
    simp only [List.map_cons, List.nodup_cons] at hnd
    unfold poll_loop
    by_cases hst : s.state = SessionState.stopped
    · rw [if_pos hst]
      exact ih r hnd.2
    · rw [if_neg hst]
      by_cases hh : hostHas host s.tmux_session_name = true
      · rw [if_pos hh]
        dsimp only
        by_cases hns :
            (match tr s.tmux_session_name with
              | some recs => detect_state_from_transcript recs
              | none =>
                detect_state_from_output
                  (captureOut host s.tmux_session_name)) = s.state
        · rw [if_pos hns]
          exact ih r hnd.2
        · rw [if_neg hns]
          dsimp only
          rw [cntTmux_cons]
          by_cases he : s.tmux_session_name = n
          · rw [if_pos he]
            have h0 : cntTmux n (poll_loop host tr rest
                (insertA r s.tmux_session_name { s with state :=
                  (match tr s.tmux_session_name with
                    | some recs => detect_state_from_transcript recs
                    | none =>
                      detect_state_from_output
                        (captureOut host s.tmux_session_name)) })).2 = 0 := by
              apply cntTmux_eq_zero
              intro cb hcb hce
              apply hnd.1
              rw [he, ← hce]
              exact poll_loop_cb_tmux_mem host tr rest _ cb hcb
            rw [h0]
          · rw [if_neg he]
            exact ih _ hnd.2
      · rw [if_neg hh]
        dsimp only
        rw [cntTmux_cons]
        by_cases he : s.tmux_session_name = n
        · rw [if_pos he]
          have h0 : cntTmux n (poll_loop host tr rest
              (insertA r s.tmux_session_name
                { s with state := SessionState.stopped })).2 = 0 := by
            apply cntTmux_eq_zero
            intro cb hcb hce
            apply hnd.1
            rw [he, ← hce]
            exact poll_loop_cb_tmux_mem host tr rest _ cb hcb
          rw [h0]
        · rw [if_neg he]
          exact ih _ hnd.2

/-- Claim C5 counterexample: a session newly discovered during the cycle's
sync receives two callback invocations in the same `_poll_all` cycle — one
appearance notification (with the seeded initial state, `WORKING` from the
empty pane capture) and one transition notification (the Tier-1 transcript
detection then yields `IDLE`). -/
theorem double_callback_cex :
    cntTmux "claude_a"
      (poll_all [⟨"claude_a", "", some ""⟩] [⟨"claude_a", "", some ""⟩]
        (fun _ => some [LogRecord.assistant []]) []).callbacks = 2 := by
  decide

/-- Claim C5 amended: within one poll cycle a single session receives at most
two state-change callback invocations, and a session that is not newly
discovered during the cycle's sync receives at most one; a newly discovered
session can receive both an appearance notification and a transition
notification in the same cycle. The hypotheses are the store's
well-formedness invariants: keys are unique and every entry is keyed by its
session's tmux name. -/
theorem at_most_two_callbacks_per_cycle (hostSync hostLive : List HostSession)
    (tr : String → Option (List LogRecord)) (r : Registry) (n : String)
    (hnd : (r.map Prod.fst).Nodup)
    (hwf : ∀ kv ∈ r, kv.2.tmux_session_name = kv.1) :
    cntTmux n (poll_all hostSync hostLive tr r).callbacks ≤ 2 ∧
    (listHasStr (sync_sessions hostSync r).fresh n = false →
      cntTmux n (poll_all hostSync hostLive tr r).callbacks ≤ 1) := by
  have hnd1 : ((sync_sessions hostSync r).registry.map Prod.fst).Nodup :=
    sync_keys_nodup hostSync r hnd
  have hwf1 : ∀ kv ∈ (sync_sessions hostSync r).registry,
      kv.2.tmux_session_name = kv.1 := by
    intro kv' hkv'
    exact discover_mem (fun kv => kv.2.tmux_session_name = kv.1) hostSync
      (fun s _ st _ => rfl) r hwf kv' (sync_mem_discover hostSync r kv' hkv').1
  have hsnap : ((list_sessions (sync_sessions hostSync r).registry).map
      (fun i => i.tmux_session_name)).Nodup := by
    rw [snapshot_tmux_eq_keys _ hwf1]
    exact hnd1
  unfold poll_all
  dsimp only
  rw [cntTmux_append]
  have h1 : cntTmux n ((list_sessions (sync_sessions hostSync r).registry).filter
      (fun i => listHasStr (sync_sessions hostSync r).fresh i.tmux_session_name)) ≤ 1 :=
    le_trans (cntTmux_filter_le n _ _) (cntTmux_le_one_of_nodup n _ hsnap)
  have h2 : cntTmux n (poll_loop hostLive tr
      (list_sessions (sync_sessions hostSync r).registry)
      (sync_sessions hostSync r).registry).2 ≤ 1 :=
    poll_loop_cnt_le_one hostLive tr n _ _ hsnap
  constructor
  · omega
  · intro hf
    have h0 : cntTmux n ((list_sessions (sync_sessions hostSync r).registry).filter
        (fun i => listHasStr (sync_sessions hostSync r).fresh i.tmux_session_name)) = 0 := by
      apply cntTmux_eq_zero
      intro i hi hin
      have hp := (List.mem_filter.mp hi).2
      rw [hin, hf] at hp
      cases hp
    omega

theorem at_most_two_callbacks_per_cycle_witness :
    (([] : Registry).map Prod.fst).Nodup ∧
    (∀ kv ∈ ([] : Registry), kv.2.tmux_session_name = kv.1) ∧
    (cntTmux "claude_a"
        (poll_all [⟨"claude_a", "", some ""⟩] [⟨"claude_a", "", some ""⟩]
          (fun _ => some [LogRecord.assistant []]) []).callbacks ≤ 2 ∧
      (listHasStr (sync_sessions [⟨"claude_a", "", some ""⟩] []).fresh "claude_a" = false →
        cntTmux "claude_a"
          (poll_all [⟨"claude_a", "", some ""⟩] [⟨"claude_a", "", some ""⟩]
            (fun _ => some [LogRecord.assistant []]) []).callbacks ≤ 1)) :=
  ⟨List.nodup_nil, fun kv h => absurd h (List.not_mem_nil kv),
   at_most_two_callbacks_per_cycle [⟨"claude_a", "", some ""⟩]
     [⟨"claude_a", "", some ""⟩] (fun _ => some [LogRecord.assistant []]) []
     "claude_a" List.nodup_nil (fun kv h => absurd h (List.not_mem_nil kv))⟩
